import Mathlib

/-!
Verification of the UniDOS emulator (`src/main.c`) against its
natural-language specification.

The development shallow-embeds the loader (`load_com`), the process
control block builder (`setup_psp`), the interrupt dispatcher
(`hook_intr`) and the driver (`main`) as pure Lean functions.  Guest
memory is a function `Nat → Nat` giving the byte stored at each absolute
address; machine integers are modelled as `Nat` (all the counters in the
source are bounded well below their types' ranges, which we prove where
it matters).
-/

namespace UniDOS

/-- `#define DOS_ADDR 0x100` — the load offset of a .COM image. -/
def DOS_ADDR : Nat := 0x100

/-- `#define MEM_SIZE 1 << 20` — the emulated address-space size (1 MiB). -/
def MEM_SIZE : Nat := 1 <<< 20

/-- Modelled from the spec: the `MK_FP` macro comes from a header that is
not under `src/`; the spec's glossary defines segment:offset resolution
as `segment × 16 + offset` (real-mode addressing).  `main.c` only ever
calls it as `MK_FP(seg, 0)` with `seg = 0`. -/
def MK_FP (seg off : Nat) : Nat := 16 * seg + off

/-- Guest memory: byte value at each absolute address. -/
def Mem : Type := Nat → Nat

/-- The all-zero memory, the state `memset(memory, 0, MEM_SIZE)` creates. -/
def zeroMem : Mem := fun _ => 0

/-- Write the byte list `bs` into memory starting at absolute address
`base` (the model of `memcpy`-style stores and of `fread` into
`memory + base`).  Addresses outside `[base, base + bs.length)` keep
their previous contents. -/
def writeBytes (m : Mem) (base : Nat) (bs : List Nat) : Mem :=
  fun a => if base ≤ a ∧ a - base < bs.length then bs.getD (a - base) 0 else m a

/-! ### The packed `struct PSP` layout

`main.c` declares `struct PSP` under `#pragma pack(push, 1)`, so each
field starts right after the previous one.  The offsets below accumulate
the declared field sizes in declaration order. -/

/-- `uint8_t CPMExit[2]` starts the struct. -/
def off_CPMExit : Nat := 0

/-- `uint16_t FirstFreeSegment` follows the 2-byte `CPMExit`. -/
def off_FirstFreeSegment : Nat := off_CPMExit + 2

/-- `uint8_t Reserved1`. -/
def off_Reserved1 : Nat := off_FirstFreeSegment + 2

/-- `uint8_t CPMCall5Compat[5]`. -/
def off_CPMCall5Compat : Nat := off_Reserved1 + 1

/-- `uint32_t OldTSRAddress`. -/
def off_OldTSRAddress : Nat := off_CPMCall5Compat + 5

/-- `uint32_t OldBreakAddress`. -/
def off_OldBreakAddress : Nat := off_OldTSRAddress + 4

/-- `uint32_t CriticalErrorHandlerAddress`. -/
def off_CriticalErrorHandlerAddress : Nat := off_OldBreakAddress + 4

/-- `uint16_t CallerPSPSegment`. -/
def off_CallerPSPSegment : Nat := off_CriticalErrorHandlerAddress + 4

/-- `uint8_t JobFileTable[20]`. -/
def off_JobFileTable : Nat := off_CallerPSPSegment + 2

/-- `uint16_t EnvironmentSegment`. -/
def off_EnvironmentSegment : Nat := off_JobFileTable + 20

/-- `uint32_t INT21SSSP`. -/
def off_INT21SSSP : Nat := off_EnvironmentSegment + 2

/-- `uint16_t JobFileTableSize`. -/
def off_JobFileTableSize : Nat := off_INT21SSSP + 4

/-- `uint32_t JobFileTablePointer`. -/
def off_JobFileTablePointer : Nat := off_JobFileTableSize + 2

/-- `uint32_t PreviousPSP`. -/
def off_PreviousPSP : Nat := off_JobFileTablePointer + 4

/-- `uint32_t Reserved2`. -/
def off_Reserved2 : Nat := off_PreviousPSP + 4

/-- `uint16_t DOSVersion`. -/
def off_DOSVersion : Nat := off_Reserved2 + 4

/-- `uint8_t Reserved3[14]`. -/
def off_Reserved3 : Nat := off_DOSVersion + 2

/-- `uint8_t DOSFarCall[3]`. -/
def off_DOSFarCall : Nat := off_Reserved3 + 14

/-- `uint16_t Reserved4`. -/
def off_Reserved4 : Nat := off_DOSFarCall + 3

/-- `uint8_t ExtendedFCB1[7]`. -/
def off_ExtendedFCB1 : Nat := off_Reserved4 + 2

/-- `uint8_t FCB1[16]`. -/
def off_FCB1 : Nat := off_ExtendedFCB1 + 7

/-- `uint8_t FCB2[20]`. -/
def off_FCB2 : Nat := off_FCB1 + 16

/-- `uint8_t CommandLineLength`. -/
def off_CommandLineLength : Nat := off_FCB2 + 20

/-- `char CommandLine[127]`, the last field. -/
def off_CommandLine : Nat := off_CommandLineLength + 1

/-- `sizeof(struct PSP)`: the end of the last field. -/
def psp_size : Nat := off_CommandLine + 127

/-! ### Process image loader (`load_com`) -/

/-- The register fields `load_com` writes through `uc_reg_write`. -/
structure Regs where
  sp : Nat
  cs : Nat
  ds : Nat
  es : Nat
  ss : Nat
  deriving DecidableEq, Repr

/-- The fatal load errors of §7 that `load_com` can raise (in the source
both call `exit(EXIT_FAILURE)` after printing a diagnostic). -/
inductive LoadError where
  | imageNotFound
  | imageSizeInvalid
  deriving DecidableEq, Repr

/-- `load_com`: the host file is modelled as `none` when `fopen` fails
and `some bytes` (the file's contents) otherwise, so `fsize` is
`bytes.length`.  On success it returns the guest memory after
`memset(memory, 0, MEM_SIZE)` followed by
`fread(memory + DOS_ADDR, fsize, 1, f)`, the loaded size, and the
register snapshot written through `uc_reg_write`. -/
def load_com (file : Option (List Nat)) : Except LoadError (Mem × Nat × Regs) :=
  match file with
  | none => .error .imageNotFound
  | some bytes =>
    if bytes.length = 0 ∨ bytes.length > 0xff00 then .error .imageSizeInvalid
    else .ok (writeBytes zeroMem DOS_ADDR bytes, bytes.length,
              { sp := 0xfffe, cs := 0, ds := 0, es := 0, ss := 0 })

/-- The memory `load_com` produces on success (named so theorems can
talk about it without an existential). -/
def loadMem (bytes : List Nat) : Mem := writeBytes zeroMem DOS_ADDR bytes

/-- The register snapshot `load_com` installs. -/
def initRegs : Regs := { sp := 0xfffe, cs := 0, ds := 0, es := 0, ss := 0 }

/-! ### Process control block builder (`setup_psp`)

The command-line loop of `setup_psp` is

```c
uint8_t c = 0;
for (int i = 2; i < argc && c < 0x7E; i++) {
    j = 0;
    PSP->CommandLine[c++] = ' ';
    while (argv[i][j] && c < 0x7E)
        PSP->CommandLine[c++] = argv[i][j++];
}
PSP->CommandLine[c] = 0x0D;
PSP->CommandLineLength = c;
```

We model the bytes accumulated in `CommandLine[0..c)` as a list built by
the two loops.  Each host argument is a C string, i.e. a list of nonzero
bytes; `argv` is the list of all arguments including the program name
and the image path (the loop starts at index 2). -/

/-- The inner `while` loop: append the characters of one argument as
long as `c < 0x7E`. -/
def appendChars : List Nat → List Nat → List Nat
  | [], cmd => cmd
  | ch :: rest, cmd =>
    if cmd.length < 0x7E then appendChars rest (cmd ++ [ch]) else cmd

/-- The outer `for` loop over `argv[2..]`: write a space separator, then
the argument's characters, while `c < 0x7E`. -/
def buildCmdLine : List (List Nat) → List Nat → List Nat
  | [], cmd => cmd
  | arg :: rest, cmd =>
    if cmd.length < 0x7E then buildCmdLine rest (appendChars arg (cmd ++ [0x20]))
    else cmd

/-- The command-line tail content for a full `argv` (the source skips
`argv[0]` and `argv[1]`). -/
def cmdTail (argv : List (List Nat)) : List Nat := buildCmdLine (argv.drop 2) []

/-- `setup_psp(seg, memory, argc, argv)`: writes the two trampolines,
the first FCB marker, the command-line bytes with their carriage-return
terminator, and the length prefix, at the struct's packed offsets from
`abs = MK_FP(seg, 0)`. -/
def setup_psp (seg : Nat) (memory : Mem) (argv : List (List Nat)) : Mem :=
  let abs := MK_FP seg 0
  let cmd := cmdTail argv
  let m1 := writeBytes memory (abs + off_CPMExit) [0xcd, 0x20]
  let m2 := writeBytes m1 (abs + off_DOSFarCall) [0xcd, 0x21, 0xcb]
  let m3 := writeBytes m2 (abs + off_FCB1) [0x01, 0x20]
  let m4 := writeBytes m3 (abs + off_CommandLine) (cmd ++ [0x0d])
  fun a => if a = abs + off_CommandLineLength then cmd.length else m4 a

/-! ### Interrupt dispatcher (`hook_intr`) -/

/-- What one invocation of the `hook_intr` callback does: either the
`default` branch (a `printf` of the instruction pointer, the vector and
the function selector, then fall out of the `switch` and return to the
engine, resuming emulation), or a delegation to `int21` / `int20`. -/
inductive IntrAction where
  | logged (ip : Nat) (intno : Nat) (ah : Nat)
  | dosAPI
  | dosExit
  deriving DecidableEq, Repr

/-- `hook_intr`: reads IP and AH, then switches on the vector number:
`0x21` goes to `int21`, `0x20` goes to `int20`, and every other vector
takes the `default` branch. -/
def hook_intr (intno ip ah : Nat) : IntrAction :=
  if intno = 0x21 then .dosAPI
  else if intno = 0x20 then .dosExit
  else .logged ip intno ah

/-- Whether the dispatcher branch itself lets emulation continue:
the `default` branch only prints and returns to the engine.  Delegated
vectors hand control to the `int20`/`int21` handlers (outside `src/`),
so only those branches could possibly end the run. -/
def IntrAction.dispatcherContinues : IntrAction → Bool
  | .logged _ _ _ => true
  | .dosAPI => true
  | .dosExit => true

/-! ### Driver (`main`) -/

/-- The host-observable outcome of `main`: the process exit code,
whether the usage text went to standard output, whether a diagnostic
line went to standard error, and whether `uc_emu_start` was reached. -/
structure MainResult where
  exitCode : Int
  usageShown : Bool
  diagShown : Bool
  emuStarted : Bool
  deriving DecidableEq, Repr

/-- `main`: `argv` is the host argument vector (so `argc = argv.length`),
`openOk` is whether `uc_open` succeeds, `mapOk` whether `uc_mem_map`
succeeds, `file` the image file (as for `load_com`), and `emuErr`
whether `uc_emu_start` reports a runtime error.  `EXIT_FAILURE = 1`.
Note the source's `uc_mem_map` failure branch prints to `stderr` but
`return 0`. -/
def mainFn (argv : List (List Nat)) (openOk mapOk : Bool) (file : Option (List Nat))
    (emuErr : Bool) : MainResult :=
  if argv.length = 1 then
    { exitCode := -1, usageShown := true, diagShown := false, emuStarted := false }
  else if openOk = false then
    { exitCode := 1, usageShown := false, diagShown := true, emuStarted := false }
  else if mapOk = false then
    { exitCode := 0, usageShown := false, diagShown := true, emuStarted := false }
  else
    match load_com file with
    | .error _ =>
      { exitCode := 1, usageShown := false, diagShown := true, emuStarted := false }
    | .ok _ =>
      { exitCode := 0, usageShown := false, diagShown := emuErr, emuStarted := true }

/-! ### Derived definitions used to state the claims -/

/-- The untruncated command-line content: every argument from `argv[2]`
on, each preceded by one space, concatenated.  `setup_psp` writes a
prefix of this (proved below). -/
def cmdConcat : List (List Nat) → List Nat
  | [] => []
  | a :: rest => 0x20 :: (a ++ cmdConcat rest)

/-- The set of PSP byte offsets `setup_psp` explicitly writes when the
command-line content has length `len`: the 2-byte `CPMExit`, the 3-byte
`DOSFarCall`, the first two bytes of `FCB1`, the `CommandLineLength`
byte, and `CommandLine[0..len]` (content plus the 0x0D terminator). -/
def pspWritten (len a : Nat) : Bool :=
  a < 2 || (0x50 ≤ a && a < 0x53) || a = 0x5c || a = 0x5d || a = 0x80 ||
    (0x81 ≤ a && a ≤ 0x81 + len)

/-! ### Helper lemmas -/

theorem writeBytes_in (m : Mem) (base : Nat) (bs : List Nat) (a : Nat)
    (h1 : base ≤ a) (h2 : a - base < bs.length) :
    writeBytes m base bs a = bs.getD (a - base) 0 := by
  simp only [writeBytes]
  exact if_pos ⟨h1, h2⟩

theorem writeBytes_out (m : Mem) (base : Nat) (bs : List Nat) (a : Nat)
    (h : ¬(base ≤ a ∧ a - base < bs.length)) :
    writeBytes m base bs a = m a := by
  simp only [writeBytes]
  exact if_neg h

theorem off_CPMExit_eq : off_CPMExit = 0 := rfl

theorem off_FirstFreeSegment_eq : off_FirstFreeSegment = 2 := rfl

theorem off_EnvironmentSegment_eq : off_EnvironmentSegment = 44 := rfl

theorem off_DOSVersion_eq : off_DOSVersion = 64 := rfl

theorem off_DOSFarCall_eq : off_DOSFarCall = 0x50 := rfl

theorem off_FCB1_eq : off_FCB1 = 0x5c := rfl

theorem off_FCB2_eq : off_FCB2 = 0x6c := rfl

theorem off_CommandLineLength_eq : off_CommandLineLength = 0x80 := rfl

theorem off_CommandLine_eq : off_CommandLine = 0x81 := rfl

theorem psp_size_eq : psp_size = 256 := rfl

/-- Taking `n` of `Y.take n ++ z` is the same as taking `n` of `Y ++ z`. -/
theorem take_append_take (Y z : List Nat) (n : Nat) :
    (Y.take n ++ z).take n = (Y ++ z).take n := by
  rw [List.take_append_eq_append_take, List.take_append_eq_append_take,
    List.take_take, min_self, List.length_take]
  congr 2
  omega

/-- The inner `while` loop writes exactly the first `0x7E` bytes of
`cmd ++ chars` (given the counter invariant `cmd.length ≤ 0x7E`). -/
theorem appendChars_eq_take (chars : List Nat) (cmd : List Nat)
    (h : cmd.length ≤ 0x7E) :
    appendChars chars cmd = (cmd ++ chars).take 0x7E := by
  induction chars generalizing cmd with
  | nil =>
    simp only [appendChars, List.append_nil, List.take_of_length_le h]
  | cons ch rest ih =>
    unfold appendChars
    by_cases hlt : cmd.length < 0x7E
    · rw [if_pos hlt, ih (cmd ++ [ch])
        (by simp only [List.length_append, List.length_cons, List.length_nil]; omega)]
      congr 1
      simp
    · rw [if_neg hlt]
      have h126 : cmd.length = 0x7E := le_antisymm h (not_lt.mp hlt)
      rw [List.take_append_eq_append_take, List.take_of_length_le h, h126,
        Nat.sub_self]
      simp

/-- The outer `for` loop writes exactly the first `0x7E` bytes of
`cmd ++ cmdConcat args`. -/
theorem buildCmdLine_eq_take (args : List (List Nat)) (cmd : List Nat)
    (h : cmd.length ≤ 0x7E) :
    buildCmdLine args cmd = (cmd ++ cmdConcat args).take 0x7E := by
  induction args generalizing cmd with
  | nil =>
    simp only [buildCmdLine, cmdConcat, List.append_nil, List.take_of_length_le h]
  | cons a rest ih =>
    unfold buildCmdLine
    by_cases hlt : cmd.length < 0x7E
    · rw [if_pos hlt, appendChars_eq_take a (cmd ++ [0x20])
          (by simp only [List.length_append, List.length_cons, List.length_nil]; omega),
        ih _ (by simp only [List.length_take]; omega), take_append_take]
      congr 1
      simp [cmdConcat]
    · rw [if_neg hlt]
      have h126 : cmd.length = 0x7E := le_antisymm h (not_lt.mp hlt)
      rw [List.take_append_eq_append_take, List.take_of_length_le h, h126,
        Nat.sub_self]
      simp

/-- The command-line tail is the 126-byte truncation of the full
space-separated concatenation of `argv[2..]`. -/
theorem cmdTail_eq_take (argv : List (List Nat)) :
    cmdTail argv = (cmdConcat (argv.drop 2)).take 0x7E := by
  simpa using buildCmdLine_eq_take (argv.drop 2) [] (by simp)

/-- The counter `c` of `setup_psp` never exceeds `0x7E = 126`. -/
theorem cmdTail_length_le (argv : List (List Nat)) :
    (cmdTail argv).length ≤ 0x7E := by
  rw [cmdTail_eq_take]
  simp only [List.length_take]
  omega

theorem DOS_ADDR_eq : DOS_ADDR = 0x100 := rfl

/-! ### Claim theorems -/

/-- C1: for every image size `s` with `0 < s ≤ 0xFF00`, loading succeeds:
guest memory is the zeroed buffer with exactly the `s` file bytes at
absolute offset 0x100, and every other byte of guest memory is zero. -/
theorem load_com_valid_size (bytes : List Nat) (h1 : 0 < bytes.length)
    (h2 : bytes.length ≤ 0xff00) :
    load_com (some bytes) = .ok (loadMem bytes, bytes.length, initRegs) ∧
    (∀ i, i < bytes.length → loadMem bytes (DOS_ADDR + i) = bytes.getD i 0) ∧
    (∀ a, a < MEM_SIZE → a < DOS_ADDR ∨ DOS_ADDR + bytes.length ≤ a →
      loadMem bytes a = 0) := by
  refine ⟨?_, ?_, ?_⟩
  · have hcond : ¬(bytes.length = 0 ∨ bytes.length > 0xff00) := by omega
    simp only [load_com, loadMem, initRegs]
    rw [if_neg hcond]
  · intro i hi
    rw [loadMem, writeBytes_in _ _ _ _ (Nat.le_add_right _ _) (by omega),
      Nat.add_sub_cancel_left]
  · intro a ha hsplit
    rw [loadMem, writeBytes_out]
    · rfl
    · rintro ⟨hb1, hb2⟩
      rcases hsplit with h | h <;> omega

/-- Witness for C1 at the one-byte image `[0xc3]`. -/
theorem load_com_valid_size_w :
    load_com (some [0xc3]) = .ok (loadMem [0xc3], [0xc3].length, initRegs) ∧
    (∀ i, i < ([0xc3] : List Nat).length →
      loadMem [0xc3] (DOS_ADDR + i) = [0xc3].getD i 0) ∧
    (∀ a, a < MEM_SIZE → a < DOS_ADDR ∨ DOS_ADDR + ([0xc3] : List Nat).length ≤ a →
      loadMem [0xc3] a = 0) :=
  load_com_valid_size [0xc3] (by decide) (by decide)

/-- C2: for `s = 0` or `s > 0xFF00`, `load_com` fails with
`ImageSizeInvalid`, and the driver aborts with a diagnostic, exit code
`EXIT_FAILURE = 1`, without ever reaching `uc_emu_start`. -/
theorem load_com_invalid_size_aborts (argv : List (List Nat)) (bytes : List Nat)
    (emuErr : Bool) (hargv : argv.length ≠ 1)
    (hsz : bytes.length = 0 ∨ bytes.length > 0xff00) :
    load_com (some bytes) = .error .imageSizeInvalid ∧
    mainFn argv true true (some bytes) emuErr =
      { exitCode := 1, usageShown := false, diagShown := true,
        emuStarted := false } := by
  have hload : load_com (some bytes) = .error .imageSizeInvalid := by
    simp only [load_com]
    rw [if_pos hsz]
  refine ⟨hload, ?_⟩
  simp [mainFn, hargv, hload]

/-- Witness for C2 at the empty image. -/
theorem load_com_invalid_size_aborts_w :
    load_com (some []) = .error .imageSizeInvalid ∧
    mainFn [[0x75], [0x70]] true true (some []) false =
      { exitCode := 1, usageShown := false, diagShown := true,
        emuStarted := false } :=
  load_com_invalid_size_aborts [[0x75], [0x70]] [] false (by decide) (Or.inl rfl)

/-- C6: the packed `struct PSP` is exactly 256 bytes, with the
termination trampoline at offset 0, the free-segment pointer at 2, the
API-call trampoline at 0x50, the two FCB slots at 0x5C and 0x6C, the
command-line length prefix at 0x80 and the 127-byte command-line text
filling the record to byte 256. -/
theorem psp_layout :
    psp_size = 256 ∧ off_CPMExit = 0 ∧ off_FirstFreeSegment = 2 ∧
    off_DOSFarCall = 0x50 ∧ off_FCB1 = 0x5c ∧ off_FCB2 = 0x6c ∧
    off_CommandLineLength = 0x80 ∧ off_CommandLine = 0x81 ∧
    off_CommandLine + 127 = psp_size := by
  decide

/-- C7: every interrupt vector other than 0x20 and 0x21 takes the
dispatcher's `default` branch, which only logs the vector and function
selector; no branch of the dispatcher itself ends the run (the `switch`
always falls through back to the engine). -/
theorem hook_intr_unknown_vector (intno ip ah : Nat)
    (h20 : intno ≠ 0x20) (h21 : intno ≠ 0x21) :
    hook_intr intno ip ah = .logged ip intno ah ∧
    (∀ n i a, (hook_intr n i a).dispatcherContinues = true) := by
  constructor
  · simp only [hook_intr]
    rw [if_neg h21, if_neg h20]
  · intro n i a
    cases hook_intr n i a <;> rfl

/-- Witness for C7 at the BIOS video vector 0x10. -/
theorem hook_intr_unknown_vector_w :
    hook_intr 0x10 0x100 0x0e = .logged 0x100 0x10 0x0e ∧
    (∀ n i a, (hook_intr n i a).dispatcherContinues = true) :=
  hook_intr_unknown_vector 0x10 0x100 0x0e (by decide) (by decide)

/-- C8 (code evaluation at the failing input): when `uc_mem_map` fails,
`main` prints a diagnostic to standard error but returns exit code 0 —
not the nonzero exit the claim (and §7 of the spec) requires. -/
theorem main_mem_map_failure_exit_zero :
    mainFn [[0x75], [0x70]] true false (some [0xc3]) false =
      { exitCode := 0, usageShown := false, diagShown := true,
        emuStarted := false } := by
  decide

/-- C9: whenever `load_com` returns successfully, the register snapshot
it installed is SP = 0xFFFE and CS = DS = ES = SS = 0. -/
theorem load_com_init_registers (file : Option (List Nat)) (m : Mem) (sz : Nat)
    (r : Regs) (h : load_com file = .ok (m, sz, r)) :
    r.sp = 0xfffe ∧ r.cs = 0 ∧ r.ds = 0 ∧ r.es = 0 ∧ r.ss = 0 := by
  cases file with
  | none => simp [load_com] at h
  | some bytes =>
    simp only [load_com] at h
    by_cases hc : bytes.length = 0 ∨ bytes.length > 0xff00
    · rw [if_pos hc] at h
      simp at h
    · rw [if_neg hc] at h
      injection h with h
      rw [Prod.mk.injEq, Prod.mk.injEq] at h
      obtain ⟨-, -, h3⟩ := h
      rw [← h3]
      exact ⟨rfl, rfl, rfl, rfl, rfl⟩

/-- Witness for C9 at the one-byte image `[0xc3]`. -/
theorem load_com_init_registers_w :
    initRegs.sp = 0xfffe ∧ initRegs.cs = 0 ∧ initRegs.ds = 0 ∧
    initRegs.es = 0 ∧ initRegs.ss = 0 :=
  load_com_init_registers (some [0xc3]) (loadMem [0xc3]) ([0xc3].length)
    initRegs (by rfl)

/-- Below the command-line area (`a < 0x80`), `setup_psp` at segment 0
is just the three fixed-byte writes over the incoming memory. -/
theorem setup_psp_low (memory : Mem) (argv : List (List Nat)) (a : Nat)
    (ha : a < 0x80) :
    setup_psp 0 memory argv a =
      writeBytes (writeBytes (writeBytes memory 0 [0xcd, 0x20])
        0x50 [0xcd, 0x21, 0xcb]) 0x5c [0x01, 0x20] a := by
  simp only [setup_psp, MK_FP, off_CPMExit_eq, off_DOSFarCall_eq, off_FCB1_eq,
    off_CommandLine_eq, off_CommandLineLength_eq, Nat.mul_zero, Nat.zero_add,
    Nat.add_zero]
  rw [if_neg (by omega), writeBytes_out _ _ _ _ (by rintro ⟨hb, -⟩; omega)]

/-- C4: with host arguments `foo bar` after the program name and the
image path, the command-line tail content is exactly the 8 bytes
`" foo bar"`, the length prefix is 8, and the 0x0D terminator
immediately follows the content. -/
theorem cmdline_foo_bar :
    cmdTail [[0x75, 0x64], [0x70, 0x2e], [0x66, 0x6f, 0x6f], [0x62, 0x61, 0x72]] =
      [0x20, 0x66, 0x6f, 0x6f, 0x20, 0x62, 0x61, 0x72] ∧
    (setup_psp 0 zeroMem
        [[0x75, 0x64], [0x70, 0x2e], [0x66, 0x6f, 0x6f], [0x62, 0x61, 0x72]])
      off_CommandLineLength = 8 ∧
    (setup_psp 0 zeroMem
        [[0x75, 0x64], [0x70, 0x2e], [0x66, 0x6f, 0x6f], [0x62, 0x61, 0x72]])
      (off_CommandLine + 0) = 0x20 ∧
    (setup_psp 0 zeroMem
        [[0x75, 0x64], [0x70, 0x2e], [0x66, 0x6f, 0x6f], [0x62, 0x61, 0x72]])
      (off_CommandLine + 1) = 0x66 ∧
    (setup_psp 0 zeroMem
        [[0x75, 0x64], [0x70, 0x2e], [0x66, 0x6f, 0x6f], [0x62, 0x61, 0x72]])
      (off_CommandLine + 2) = 0x6f ∧
    (setup_psp 0 zeroMem
        [[0x75, 0x64], [0x70, 0x2e], [0x66, 0x6f, 0x6f], [0x62, 0x61, 0x72]])
      (off_CommandLine + 3) = 0x6f ∧
    (setup_psp 0 zeroMem
        [[0x75, 0x64], [0x70, 0x2e], [0x66, 0x6f, 0x6f], [0x62, 0x61, 0x72]])
      (off_CommandLine + 4) = 0x20 ∧
    (setup_psp 0 zeroMem
        [[0x75, 0x64], [0x70, 0x2e], [0x66, 0x6f, 0x6f], [0x62, 0x61, 0x72]])
      (off_CommandLine + 5) = 0x62 ∧
    (setup_psp 0 zeroMem
        [[0x75, 0x64], [0x70, 0x2e], [0x66, 0x6f, 0x6f], [0x62, 0x61, 0x72]])
      (off_CommandLine + 6) = 0x61 ∧
    (setup_psp 0 zeroMem
        [[0x75, 0x64], [0x70, 0x2e], [0x66, 0x6f, 0x6f], [0x62, 0x61, 0x72]])
      (off_CommandLine + 7) = 0x72 ∧
    (setup_psp 0 zeroMem
        [[0x75, 0x64], [0x70, 0x2e], [0x66, 0x6f, 0x6f], [0x62, 0x61, 0x72]])
      (off_CommandLine + 8) = 0x0D := by
  decide

/-- C5: every call of `setup_psp` writes the fixed byte sequences
`CD 20` at offset 0 (`INT 20h`), `CD 21 CB` at offset 0x50
(`INT 21h; RETF`), and `01 20` at the start of the first FCB slot,
regardless of the argument list and the incoming memory. -/
theorem setup_psp_fixed_bytes (argv : List (List Nat)) (memory : Mem) :
    setup_psp 0 memory argv off_CPMExit = 0xcd ∧
    setup_psp 0 memory argv (off_CPMExit + 1) = 0x20 ∧
    setup_psp 0 memory argv off_DOSFarCall = 0xcd ∧
    setup_psp 0 memory argv (off_DOSFarCall + 1) = 0x21 ∧
    setup_psp 0 memory argv (off_DOSFarCall + 2) = 0xcb ∧
    setup_psp 0 memory argv off_FCB1 = 0x01 ∧
    setup_psp 0 memory argv (off_FCB1 + 1) = 0x20 := by
  refine ⟨?_, ?_, ?_, ?_, ?_, ?_, ?_⟩ <;>
    simp only [off_CPMExit_eq, off_DOSFarCall_eq, off_FCB1_eq] <;>
    rw [setup_psp_low _ _ _ (by omega)] <;>
    simp [writeBytes]

/-- C3: for every host argument list and incoming memory, the length
prefix at offset 0x80 equals the number of content bytes, that count
never exceeds 126, the 0x0D terminator sits immediately after the last
content byte, the content bytes are exactly those of `cmdTail`, and the
content is the truncation to 126 bytes of the full space-separated
concatenation of the arguments past the image path. -/
theorem setup_psp_cmdline (argv : List (List Nat)) (memory : Mem) :
    setup_psp 0 memory argv off_CommandLineLength = (cmdTail argv).length ∧
    (cmdTail argv).length ≤ 0x7E ∧
    setup_psp 0 memory argv (off_CommandLine + (cmdTail argv).length) = 0x0D ∧
    (∀ k, k < (cmdTail argv).length →
      setup_psp 0 memory argv (off_CommandLine + k) = (cmdTail argv).getD k 0) ∧
    cmdTail argv = (cmdConcat (argv.drop 2)).take 0x7E := by
  refine ⟨?_, cmdTail_length_le argv, ?_, ?_, cmdTail_eq_take argv⟩
  · simp only [setup_psp, MK_FP, off_CommandLineLength_eq, Nat.mul_zero,
      Nat.zero_add, Nat.add_zero, if_true]
  · simp only [setup_psp, MK_FP, off_CPMExit_eq, off_DOSFarCall_eq, off_FCB1_eq,
      off_CommandLine_eq, off_CommandLineLength_eq, Nat.mul_zero, Nat.zero_add,
      Nat.add_zero]
    rw [if_neg (by omega),
      writeBytes_in _ _ _ _ (by omega)
        (by simp only [List.length_append, List.length_cons, List.length_nil]
            omega),
      Nat.add_sub_cancel_left, List.getD_append_right _ _ _ _ (le_refl _),
      Nat.sub_self]
    rfl
  · intro k hk
    simp only [setup_psp, MK_FP, off_CPMExit_eq, off_DOSFarCall_eq, off_FCB1_eq,
      off_CommandLine_eq, off_CommandLineLength_eq, Nat.mul_zero, Nat.zero_add,
      Nat.add_zero]
    rw [if_neg (by omega),
      writeBytes_in _ _ _ _ (by omega)
        (by simp only [List.length_append, List.length_cons, List.length_nil]
            omega),
      Nat.add_sub_cancel_left, List.getD_append _ _ _ _ hk]

/-- Witness for C3 with arguments `["unidos", "prog", "foo"]`. -/
theorem setup_psp_cmdline_w :
    setup_psp 0 zeroMem [[0x75], [0x70], [0x66, 0x6f, 0x6f]]
        off_CommandLineLength =
      (cmdTail [[0x75], [0x70], [0x66, 0x6f, 0x6f]]).length ∧
    (cmdTail [[0x75], [0x70], [0x66, 0x6f, 0x6f]]).length ≤ 0x7E ∧
    setup_psp 0 zeroMem [[0x75], [0x70], [0x66, 0x6f, 0x6f]]
        (off_CommandLine + (cmdTail [[0x75], [0x70], [0x66, 0x6f, 0x6f]]).length) =
      0x0D ∧
    (∀ k, k < (cmdTail [[0x75], [0x70], [0x66, 0x6f, 0x6f]]).length →
      setup_psp 0 zeroMem [[0x75], [0x70], [0x66, 0x6f, 0x6f]]
          (off_CommandLine + k) =
        (cmdTail [[0x75], [0x70], [0x66, 0x6f, 0x6f]]).getD k 0) ∧
    cmdTail [[0x75], [0x70], [0x66, 0x6f, 0x6f]] =
      (cmdConcat ([[0x75], [0x70], [0x66, 0x6f, 0x6f]].drop 2)).take 0x7E :=
  setup_psp_cmdline [[0x75], [0x70], [0x66, 0x6f, 0x6f]] zeroMem

/-- C10: after a load (which zeroes all guest memory) and the PSP build,
every PSP byte the builder does not explicitly write is zero: the
general statement over the written-offset set, plus the fields the claim
names — the free-segment pointer, the environment segment, the DOS
version field, the second FCB slot, and the first FCB slot past its
first two bytes (the reserved fields are covered by the general part). -/
theorem psp_unwritten_zero (bytes : List Nat) (argv : List (List Nat)) :
    (∀ a, a < psp_size → pspWritten (cmdTail argv).length a = false →
      setup_psp 0 (loadMem bytes) argv a = 0) ∧
    setup_psp 0 (loadMem bytes) argv off_FirstFreeSegment = 0 ∧
    setup_psp 0 (loadMem bytes) argv (off_FirstFreeSegment + 1) = 0 ∧
    setup_psp 0 (loadMem bytes) argv off_EnvironmentSegment = 0 ∧
    setup_psp 0 (loadMem bytes) argv (off_EnvironmentSegment + 1) = 0 ∧
    setup_psp 0 (loadMem bytes) argv off_DOSVersion = 0 ∧
    setup_psp 0 (loadMem bytes) argv (off_DOSVersion + 1) = 0 ∧
    (∀ k, k < 20 → setup_psp 0 (loadMem bytes) argv (off_FCB2 + k) = 0) ∧
    (∀ k, 2 ≤ k → k < 16 → setup_psp 0 (loadMem bytes) argv (off_FCB1 + k) = 0) := by
  have main : ∀ a, a < psp_size → pspWritten (cmdTail argv).length a = false →
      setup_psp 0 (loadMem bytes) argv a = 0 := by
    intro a ha hw
    rw [psp_size_eq] at ha
    simp only [pspWritten, Bool.or_eq_false_iff, Bool.and_eq_false_iff,
      decide_eq_false_iff_not] at hw
    simp only [setup_psp, MK_FP, off_CPMExit_eq, off_DOSFarCall_eq, off_FCB1_eq,
      off_CommandLine_eq, off_CommandLineLength_eq, Nat.mul_zero, Nat.zero_add,
      Nat.add_zero]
    rw [if_neg (by omega),
      writeBytes_out _ _ _ _
        (by rintro ⟨hb1, hb2⟩
            simp only [List.length_append, List.length_cons, List.length_nil] at hb2
            omega),
      writeBytes_out _ _ _ _
        (by rintro ⟨hb1, hb2⟩
            simp only [List.length_cons, List.length_nil] at hb2
            omega),
      writeBytes_out _ _ _ _
        (by rintro ⟨hb1, hb2⟩
            simp only [List.length_cons, List.length_nil] at hb2
            omega),
      writeBytes_out _ _ _ _
        (by rintro ⟨hb1, hb2⟩
            simp only [List.length_cons, List.length_nil] at hb2
            omega),
      loadMem, DOS_ADDR_eq,
      writeBytes_out _ _ _ _ (by rintro ⟨hb1, -⟩; omega)]
    rfl
  refine ⟨main, ?_, ?_, ?_, ?_, ?_, ?_, ?_, ?_⟩
  · rw [off_FirstFreeSegment_eq]
    exact main 2 (by decide) (by simp [pspWritten])
  · rw [off_FirstFreeSegment_eq]
    exact main 3 (by decide) (by simp [pspWritten])
  · rw [off_EnvironmentSegment_eq]
    exact main 44 (by decide) (by simp [pspWritten])
  · rw [off_EnvironmentSegment_eq]
    exact main 45 (by decide) (by simp [pspWritten])
  · rw [off_DOSVersion_eq]
    exact main 64 (by decide) (by simp [pspWritten])
  · rw [off_DOSVersion_eq]
    exact main 65 (by decide) (by simp [pspWritten])
  · intro k hk
    rw [off_FCB2_eq]
    exact main (0x6c + k) (by rw [psp_size_eq]; omega)
      (by simp only [pspWritten, Bool.or_eq_false_iff, Bool.and_eq_false_iff,
            decide_eq_false_iff_not]
          omega)
  · intro k hk2 hk16
    rw [off_FCB1_eq]
    exact main (0x5c + k) (by rw [psp_size_eq]; omega)
      (by simp only [pspWritten, Bool.or_eq_false_iff, Bool.and_eq_false_iff,
            decide_eq_false_iff_not]
          omega)

/-- Witness for C10 at the reserved byte 4 of the PSP. -/
theorem psp_unwritten_zero_w :
    setup_psp 0 (loadMem [0xc3]) [[0x75], [0x70]] 4 = 0 :=
  (psp_unwritten_zero [0xc3] [[0x75], [0x70]]).1 4 (by decide) (by decide)

end UniDOS
